import Mathlib

/-!
# fgwm: grid construction, rectangle arithmetic and the window event dispatcher

A shallow embedding of `grid/grid.go` (with the parts of `wmutils/core.go` it
uses) and the properties of it that are settled here.

Go's `int` (and `wmutils.Pixels`, which is an `int`) is modelled as a 64-bit
two's-complement integer: values are `Int`s and every arithmetic operator
reduces its mathematical result into the signed 64-bit range with `wrap`.
Integer division truncates towards zero and panics on a zero divisor.
-/

namespace Fgwm

/-! ## Go integers -/

/-- Reduction of a mathematical integer into the signed 64-bit range, which
is what Go's `int` arithmetic does on overflow. -/
def wrap (x : Int) : Int :=
  (x + 9223372036854775808) % 18446744073709551616 - 9223372036854775808

/-- The values a Go `int` can hold. -/
def InInt64 (x : Int) : Prop :=
  -9223372036854775808 ≤ x ∧ x ≤ 9223372036854775807

instance (x : Int) : Decidable (InInt64 x) := by
  unfold InInt64; infer_instance

/-- Go `a + b` on `int`. -/
def goAdd (a b : Int) : Int := wrap (a + b)

/-- Go `a - b` on `int`. -/
def goSub (a b : Int) : Int := wrap (a - b)

/-- Go `a * b` on `int`. -/
def goMul (a b : Int) : Int := wrap (a * b)

/-- Go `a / b` on `int` for a divisor that is not zero: the quotient
truncated towards zero. -/
def goQuoTrunc (a b : Int) : Int := wrap (Int.tdiv a b)

/-- Go `a / b` on `int`: truncating division; `none` is the run-time panic
on a zero divisor. -/
def goQuo (a b : Int) : Option Int :=
  if b = 0 then none else some (goQuoTrunc a b)

/-! ## `wmutils` values -/

/-- The type `wmutils.WindowID` (a `uint`). -/
abbrev WindowID := Nat

/-- The type `wmutils.Colour` (a `uint`). -/
abbrev Colour := Nat

/-- The type `wmutils.Pixels` (an `int`). -/
abbrev Pixels := Int

/-- The type `time.Duration` (an `int64` count of nanoseconds). -/
abbrev Duration := Int

/-- The struct `wmutils.Position`. -/
structure WPosition where
  X : Pixels
  Y : Pixels
  deriving DecidableEq

/-- The struct `wmutils.Size`. -/
structure WSize where
  W : Pixels
  H : Pixels
  deriving DecidableEq

/-- The method `wmutils.Position.Offset`. -/
def WPosition.Offset (p : WPosition) (s : WSize) : WPosition :=
  ⟨goAdd p.X s.W, goAdd p.Y s.H⟩

/-- The method `wmutils.Size.Add`. -/
def WSize.Add (a b : WSize) : WSize :=
  ⟨goAdd a.W b.W, goAdd a.H b.H⟩

/-- The method `wmutils.Size.Scale`. -/
def WSize.Scale (a : WSize) (k : Pixels) : WSize :=
  ⟨goMul k a.W, goMul k a.H⟩

/-! ## `grid` geometry -/

/-- The struct `grid.Position`, a grid coordinate. -/
structure Position where
  X : Int
  Y : Int
  deriving DecidableEq

/-- The struct `grid.Size`, a size in cells. -/
structure Size where
  W : Int
  H : Int
  deriving DecidableEq

/-- The struct `grid.Rectangle`. -/
structure Rectangle where
  TopLeft : Position
  BottomRight : Position
  deriving DecidableEq

/-- The method `Position.Offset` of package `grid`. -/
def Position.Offset (p : Position) (s : Size) : Position :=
  ⟨goAdd p.X s.W, goAdd p.Y s.H⟩

/-- The method `Position.Diff` of package `grid`. -/
def Position.Diff (a b : Position) : Size :=
  ⟨goSub a.X b.X, goSub a.Y b.Y⟩

/-- The method `Size.Add` of package `grid`. -/
def Size.Add (a b : Size) : Size :=
  ⟨goAdd a.W b.W, goAdd a.H b.H⟩

/-- The method `Size.Scale` of package `grid`. -/
def Size.Scale (a : Size) (k : Int) : Size :=
  ⟨goMul k a.W, goMul k a.H⟩

/-- The method `Rectangle.Size`. -/
def Rectangle.Size (r : Rectangle) : Size :=
  r.BottomRight.Diff r.TopLeft

/-- The method `Rectangle.Offset`. -/
def Rectangle.Offset (r : Rectangle) (s : Fgwm.Size) : Rectangle :=
  ⟨r.TopLeft.Offset s, r.BottomRight.Offset s⟩

/-- The method `Rectangle.Grow`. -/
def Rectangle.Grow (r : Rectangle) (s : Fgwm.Size) : Rectangle :=
  ⟨r.TopLeft.Offset (s.Scale (-1)), r.BottomRight.Offset s⟩

/-- The method `Rectangle.Valid`. -/
def Rectangle.Valid (r : Rectangle) : Bool :=
  decide (r.TopLeft.X < r.BottomRight.X) && decide (r.TopLeft.Y < r.BottomRight.Y)

/-! ## The grid and its construction -/

/-- A Go `error` value. `channelClosed` is the value built by
`errors.New("Window event channel closed!")` in `WatchWindowEvents`;
`external` stands for the errors handed back by the collaborators. -/
inductive Error where
  | channelClosed
  | external (code : Nat)
  deriving DecidableEq

/-- How a Go function that returns `(T, error)` can end: with a value, with
an error, or with a run-time panic. -/
inductive Outcome (α : Type) where
  | ok (a : α)
  | error (e : Error)
  | panic
  deriving DecidableEq

/-- The struct `grid.Grid`. The types `F` and `V` are `focus.Focus` and `view.View`,
whose packages are not part of the sources at hand. `points` is the Go map
`map[Position]wmutils.Position` as an association list, the nil map being the
empty list. `mux` is the mutex as a held flag; its zero value is free. -/
structure Grid (F V : Type) where
  screen : WSize
  margin : WSize
  pad : WSize
  border : Pixels
  cell : WSize
  points : List (Position × WPosition)
  size : Size
  focus : F
  view : V
  mux : Bool
  deriving DecidableEq

/-- Reading `m[k]` from a Go map: a missing key gives the zero value. -/
def pointsAt (m : List (Position × WPosition)) (k : Position) : WPosition :=
  (m.lookup k).getD ⟨0, 0⟩

/-- The struct `grid.Options`. -/
structure Options where
  Border : Pixels
  MinMargin : WSize
  Pad : WSize
  Size : Size
  InitialView : Int
  FocusTimeout : Duration
  FocussedColour : Colour
  UnfocussedColour : Colour
  deriving DecidableEq

/-- What `New` asks of its collaborators: `wmutils.Root`,
`wmutils.GetAttributes` (both run external commands), `focus.New` and
`view.New` (packages outside the sources at hand). Each returns its value or
an error. -/
structure NewEnv (F V : Type) where
  Root : Except Error WindowID
  GetAttributes : WindowID → Except Error (WPosition × WSize)
  focusNew : Duration → Colour → Colour → Except Error F
  viewNew : WSize → Pixels → Int → Except Error V

/-- The function `grid.New`. The statements run in the order of the source: the two
window-system queries, the two divisions for `cell` (width first), the
margin (a division by the constant 2), `focus.New`, `view.New`, and the struct literal, which names neither
`points` nor `mux` and so leaves them at their zero values. -/
def New {F V : Type} (env : NewEnv F V) (opts : Options) : Outcome (Grid F V) :=
  match env.Root with
  | .error err => .error err
  | .ok wid =>
    match env.GetAttributes wid with
    | .error err => .error err
    | .ok (_, screen) =>
      match goQuo (goSub screen.W (goMul 2 opts.MinMargin.W)) opts.Size.W with
      | none => .panic
      | some cellW =>
        match goQuo (goSub screen.H (goMul 2 opts.MinMargin.H)) opts.Size.H with
        | none => .panic
        | some cellH =>
          let cell : WSize := ⟨cellW, cellH⟩
          let margin : WSize :=
            ⟨goQuoTrunc (goSub screen.W (goMul opts.Size.W cell.W)) 2,
             goQuoTrunc (goSub screen.H (goMul opts.Size.H cell.H)) 2⟩
          match env.focusNew opts.FocusTimeout opts.FocussedColour
                  opts.UnfocussedColour with
          | .error err => .error err
          | .ok focus =>
            match env.viewNew screen opts.Border opts.InitialView with
            | .error err => .error err
            | .ok view =>
              .ok
                { screen := screen
                  margin := margin
                  border := opts.Border
                  pad := opts.Pad
                  cell := cell
                  size := opts.Size
                  focus := focus
                  view := view
                  points := []
                  mux := false }

/-- A window system whose root window is `1` and whose screen has the given
size, with trivial focus and view objects; every collaborator succeeds. -/
def screenEnv (w h : Pixels) : NewEnv Unit Unit where
  Root := .ok 1
  GetAttributes := fun _ => .ok (⟨0, 0⟩, ⟨w, h⟩)
  focusNew := fun _ _ _ => .ok ()
  viewNew := fun _ _ _ => .ok ()

/-- The options of `main.go` (border 5, minimum margin and pad 10) with the
given grid size. -/
def mainOptions (w h : Int) : Options where
  Border := 5
  MinMargin := ⟨10, 10⟩
  Pad := ⟨10, 10⟩
  Size := ⟨w, h⟩
  InitialView := 0
  FocusTimeout := 0
  FocussedColour := 0
  UnfocussedColour := 0

/-! ## The window event dispatcher -/

/-- The `Type` of a `wmutils.Event`. The four named kinds are the ones
`WatchWindowEvents` switches on; the declaration of the type is outside the
sources at hand, so `other` stands for any further kind it may have. -/
inductive EventType where
  | CreateNotifyEvent
  | DestroyNotifyEvent
  | UnmapNotifyEvent
  | MapNotifyEvent
  | other (n : Nat)
  deriving DecidableEq

/-- A `wmutils.Event`: the fields `Type` and `WID` read by the dispatcher. -/
structure Event where
  Typ : EventType
  WID : WindowID
  deriving DecidableEq

/-- The collaborator calls made by `WatchWindowEvents`. -/
inductive Call where
  | centerWID (wid : WindowID)
  | SetBorderWidth (wid : WindowID) (width : Pixels)
  | focusUnregister (wid : WindowID)
  | viewUnregisterAll (wid : WindowID)
  | focusUnset (wid : WindowID)
  | focusRegister (wid : WindowID)
  | viewRegister (wid : WindowID)
  deriving DecidableEq

/-- One entry of the record kept of a run: the pause of `time.Sleep` (in
milliseconds), the two mutex operations, and each collaborator call with
the error it returned, if any. -/
inductive Action where
  | sleep (ms : Nat)
  | lock
  | unlock
  | call (c : Call) (err : Option Error)
  deriving DecidableEq

/-- The collaborators of the dispatcher. `X` is the state of everything
outside the `Grid` (the window system, the state behind the focus and view
objects); each call may change it. The calls whose `error` the dispatcher
examines return `Option Error` here; `view.UnregisterAll` and `view.Register`
are called as statements, so nothing they return reaches the dispatcher.
`centerWID` is a method of `Grid` defined outside the sources at hand; it
runs under the lock taken by its caller. -/
structure Ops (F V X : Type) where
  centerWID : Grid F V → WindowID → X → Option Error × X
  SetBorderWidth : WindowID → Pixels → X → Option Error × X
  focusUnregister : F → WindowID → X → Option Error × F × X
  viewUnregisterAll : V → WindowID → X → V × X
  focusUnset : F → WindowID → X → Option Error × F × X
  focusRegister : F → WindowID → X → Option Error × F × X
  viewRegister : V → WindowID → X → V × X

/-- The state of a run of the dispatcher: the grid, the outside world and
the record of what has been done so far. -/
structure St (F V X : Type) where
  g : Grid F V
  x : X
  log : List Action

/-- How a run ends: `WatchWindowEvents` returns an error, or it waits in
`Lock` for a mutex that is held. The dispatcher is the only goroutine of the
model, so a mutex that is held at a `Lock` is never released. -/
inductive Exit where
  | returned (e : Error)
  | blocked
  deriving DecidableEq

/-- Append an entry to the record. -/
def St.emit {F V X : Type} (s : St F V X) (a : Action) : St F V X :=
  { s with log := s.log ++ [a] }

/-- The effect of `g.mux.Lock()` on a free mutex. -/
def St.locked {F V X : Type} (s : St F V X) : St F V X :=
  { s with g := { s.g with mux := true }, log := s.log ++ [Action.lock] }

/-- The effect of `g.mux.Unlock()`. -/
def St.unlocked {F V X : Type} (s : St F V X) : St F V X :=
  { s with g := { s.g with mux := false }, log := s.log ++ [Action.unlock] }

/-- One iteration of the loop of `WatchWindowEvents`: the `switch` on the
kind of the notification. The result is the new state and, when the
iteration leaves the function, how. -/
def handle {F V X : Type} (ops : Ops F V X) (ev : Event) (s : St F V X) :
    St F V X × Option Exit :=
  match ev.Typ with
  | .CreateNotifyEvent =>
    let s := s.emit (.sleep 100)
    if s.g.mux then (s, some .blocked) else
    let s := s.locked
    match ops.centerWID s.g ev.WID s.x with
    | (some err, x) =>
      (({ s with x := x }).emit (.call (.centerWID ev.WID) (some err)),
        some (.returned err))
    | (none, x) =>
      let s := ({ s with x := x }).emit (.call (.centerWID ev.WID) none)
      match ops.SetBorderWidth ev.WID s.g.border s.x with
      | (some err, x) =>
        (({ s with x := x }).emit
            (.call (.SetBorderWidth ev.WID s.g.border) (some err)),
          some (.returned err))
      | (none, x) =>
        let s := ({ s with x := x }).emit
          (.call (.SetBorderWidth ev.WID s.g.border) none)
        (s.unlocked, none)
  | .DestroyNotifyEvent =>
    if s.g.mux then (s, some .blocked) else
    let s := s.locked
    match ops.focusUnregister s.g.focus ev.WID s.x with
    | (some err, f, x) =>
      (({ s with g := { s.g with focus := f }, x := x }).emit
          (.call (.focusUnregister ev.WID) (some err)),
        some (.returned err))
    | (none, f, x) =>
      let s := ({ s with g := { s.g with focus := f }, x := x }).emit
        (.call (.focusUnregister ev.WID) none)
      let (v, x) := ops.viewUnregisterAll s.g.view ev.WID s.x
      let s := ({ s with g := { s.g with view := v }, x := x }).emit
        (.call (.viewUnregisterAll ev.WID) none)
      (s.unlocked, none)
  | .UnmapNotifyEvent =>
    if s.g.mux then (s, some .blocked) else
    let s := s.locked
    match ops.focusUnset s.g.focus ev.WID s.x with
    | (some err, f, x) =>
      (({ s with g := { s.g with focus := f }, x := x }).emit
          (.call (.focusUnset ev.WID) (some err)),
        some (.returned err))
    | (none, f, x) =>
      let s := ({ s with g := { s.g with focus := f }, x := x }).emit
        (.call (.focusUnset ev.WID) none)
      (s.unlocked, none)
  | .MapNotifyEvent =>
    if s.g.mux then (s, some .blocked) else
    let s := s.locked
    match ops.focusRegister s.g.focus ev.WID s.x with
    | (some err, f, x) =>
      (({ s with g := { s.g with focus := f }, x := x }).emit
          (.call (.focusRegister ev.WID) (some err)),
        some (.returned err))
    | (none, f, x) =>
      let s := ({ s with g := { s.g with focus := f }, x := x }).emit
        (.call (.focusRegister ev.WID) none)
      let (v, x) := ops.viewRegister s.g.view ev.WID s.x
      let s := ({ s with g := { s.g with view := v }, x := x }).emit
        (.call (.viewRegister ev.WID) none)
      (s.unlocked, none)
  | .other _ => (s, none)

/-- The `for ev := range wmutils.WatchEvents()` loop over the notifications
delivered before the channel is closed: each is handled in turn, and an
iteration that leaves the function ends the loop. -/
def loop {F V X : Type} (ops : Ops F V X) :
    List Event → St F V X → St F V X × Option Exit
  | [], s => (s, none)
  | ev :: rest, s =>
    match handle ops ev s with
    | (s', none) => loop ops rest s'
    | (s', some ex) => (s', some ex)

/-- The method `Grid.WatchWindowEvents` on a channel that delivers `evs` and is then
closed: the loop, and after it `return errors.New("Window event channel
closed!")`. The result is the final state and how the function ended. -/
def WatchWindowEvents {F V X : Type} (ops : Ops F V X) (g : Grid F V) (x : X)
    (evs : List Event) : St F V X × Exit :=
  match loop ops evs ⟨g, x, []⟩ with
  | (s, none) => (s, .returned .channelClosed)
  | (s, some ex) => (s, ex)

/-- The collaborator calls of a record, in order, without their results. -/
def calls : List Action → List Call
  | [] => []
  | .call c _ :: rest => c :: calls rest
  | _ :: rest => calls rest

/-- The calls the dispatcher is to make for one notification, as the table of
per-notification actions gives them, for a grid with the given border
width. -/
def specCalls (border : Pixels) (ev : Event) : List Call :=
  match ev.Typ with
  | .CreateNotifyEvent => [.centerWID ev.WID, .SetBorderWidth ev.WID border]
  | .DestroyNotifyEvent => [.focusUnregister ev.WID, .viewUnregisterAll ev.WID]
  | .UnmapNotifyEvent => [.focusUnset ev.WID]
  | .MapNotifyEvent => [.focusRegister ev.WID, .viewRegister ev.WID]
  | .other _ => []

/-- Whether an entry of the record is a collaborator call that returned an
error. -/
def Action.failed : Action → Bool
  | .call _ (some _) => true
  | _ => false

/-- The record the dispatcher is to leave for one notification when none of
its calls fails: the pause (for Created), the lock, the calls of the table
with no error, and the unlock. -/
def specRecord (border : Pixels) (ev : Event) : List Action :=
  match ev.Typ with
  | .CreateNotifyEvent =>
    [.sleep 100, .lock, .call (.centerWID ev.WID) none,
     .call (.SetBorderWidth ev.WID border) none, .unlock]
  | .DestroyNotifyEvent =>
    [.lock, .call (.focusUnregister ev.WID) none,
     .call (.viewUnregisterAll ev.WID) none, .unlock]
  | .UnmapNotifyEvent => [.lock, .call (.focusUnset ev.WID) none, .unlock]
  | .MapNotifyEvent =>
    [.lock, .call (.focusRegister ev.WID) none, .call (.viewRegister ev.WID) none,
     .unlock]
  | .other _ => []

/-- One collaborator call applied to the grid and the outside world: the
error it returns, and the grid and the world it leaves. The focus calls act
on the focus object of the grid, the view calls on its view object, and
`centerWID` sees the grid with its mutex held. -/
def perform {F V X : Type} (ops : Ops F V X) (c : Call) (g : Grid F V) (x : X) :
    Option Error × Grid F V × X :=
  match c with
  | .centerWID w =>
    ((ops.centerWID { g with mux := true } w x).1, g,
      (ops.centerWID { g with mux := true } w x).2)
  | .SetBorderWidth w px =>
    ((ops.SetBorderWidth w px x).1, g, (ops.SetBorderWidth w px x).2)
  | .focusUnregister w =>
    ((ops.focusUnregister g.focus w x).1,
      { g with focus := (ops.focusUnregister g.focus w x).2.1 },
      (ops.focusUnregister g.focus w x).2.2)
  | .viewUnregisterAll w =>
    (none, { g with view := (ops.viewUnregisterAll g.view w x).1 },
      (ops.viewUnregisterAll g.view w x).2)
  | .focusUnset w =>
    ((ops.focusUnset g.focus w x).1,
      { g with focus := (ops.focusUnset g.focus w x).2.1 },
      (ops.focusUnset g.focus w x).2.2)
  | .focusRegister w =>
    ((ops.focusRegister g.focus w x).1,
      { g with focus := (ops.focusRegister g.focus w x).2.1 },
      (ops.focusRegister g.focus w x).2.2)
  | .viewRegister w =>
    (none, { g with view := (ops.viewRegister g.view w x).1 },
      (ops.viewRegister g.view w x).2)

/-- A list of collaborator calls applied one after the other, each to the
grid and the world left by the one before it. -/
def performAll {F V X : Type} (ops : Ops F V X) :
    List Call → Grid F V → X → Grid F V × X
  | [], g, x => (g, x)
  | c :: cs, g, x =>
    performAll ops cs (perform ops c g x).2.1 (perform ops c g x).2.2

/-- Whether every call of a list succeeds when the calls are applied one
after the other from the given grid and world. -/
def allSucceed {F V X : Type} (ops : Ops F V X) : List Call → Grid F V → X → Bool
  | [], _, _ => true
  | c :: cs, g, x =>
    (perform ops c g x).1.isNone &&
      allSucceed ops cs (perform ops c g x).2.1 (perform ops c g x).2.2

/-- Collaborators whose outside world is the list of the calls they have
received, in order; every call succeeds. -/
def recordingOps : Ops Unit Unit (List Call) where
  centerWID := fun _ w x => (none, x ++ [.centerWID w])
  SetBorderWidth := fun w px x => (none, x ++ [.SetBorderWidth w px])
  focusUnregister := fun f w x => (none, f, x ++ [.focusUnregister w])
  viewUnregisterAll := fun v w x => (v, x ++ [.viewUnregisterAll w])
  focusUnset := fun f w x => (none, f, x ++ [.focusUnset w])
  focusRegister := fun f w x => (none, f, x ++ [.focusRegister w])
  viewRegister := fun v w x => (v, x ++ [.viewRegister w])

/-- The oracle under which no call fails. -/
def noFailure : Call → Bool := fun _ => false

/-- The oracle under which exactly the call `c` fails. -/
def failing (c : Call) : Call → Bool := fun d => decide (d = c)

/-- Collaborators without state of their own, for running the dispatcher on
concrete inputs: the calls for which `fails` holds return the error
`external 1`, the others succeed. -/
def stubOps (fails : Call → Bool) : Ops Unit Unit Unit where
  centerWID := fun _ w x =>
    (if fails (.centerWID w) then some (.external 1) else none, x)
  SetBorderWidth := fun w px x =>
    (if fails (.SetBorderWidth w px) then some (.external 1) else none, x)
  focusUnregister := fun f w x =>
    (if fails (.focusUnregister w) then some (.external 1) else none, f, x)
  viewUnregisterAll := fun v _ x => (v, x)
  focusUnset := fun f w x =>
    (if fails (.focusUnset w) then some (.external 1) else none, f, x)
  focusRegister := fun f w x =>
    (if fails (.focusRegister w) then some (.external 1) else none, f, x)
  viewRegister := fun v _ x => (v, x)

/-- The grid that `New` builds on a 1920x1080 screen from the options of
`main.go` with 24x24 cells. -/
def mainGrid : Grid Unit Unit where
  screen := ⟨1920, 1080⟩
  margin := ⟨12, 12⟩
  pad := ⟨10, 10⟩
  border := 5
  cell := ⟨79, 44⟩
  points := []
  size := ⟨24, 24⟩
  focus := ()
  view := ()
  mux := false

/-- On one axis, with screen extent `s`, minimum margin `m` and `n` cells:
the inputs are Go integers and no step of the computation of the cell size
leaves the 64-bit range. -/
def Exact (s m n : Int) : Prop :=
  InInt64 s ∧ InInt64 (2 * m) ∧ InInt64 (s - 2 * m) ∧ InInt64 (Int.tdiv (s - 2 * m) n)

instance (s m n : Int) : Decidable (Exact s m n) := by
  unfold Exact; infer_instance

/-- The trailing margin of one axis, `screen - margin - gridSize*cell`,
evaluated with Go's operators. -/
def trailing (s mg n c : Int) : Int :=
  goSub (goSub s mg) (goMul n c)

/-! ## A concrete focus tracker and view manager

The packages `focus` and `view` are outside the sources at hand. The
definitions of this section follow their description and serve to run the
dispatcher on concrete inputs. -/

/-- Modelled from the spec: the state of the focus tracker of package
`focus`, the focused window (if any) and the history of focused windows, most
recent first. -/
structure Focus where
  current : Option WindowID
  history : List WindowID
  deriving DecidableEq

/-- Modelled from the spec: `focus.Register` of package `focus`, which adds
the window to the front of the history unless it is already tracked. -/
def Focus.Register (f : Focus) (w : WindowID) : Focus :=
  if w ∈ f.history then f else { f with history := w :: f.history }

/-- Modelled from the spec: `focus.Unregister` of package `focus`, which
removes the window from the history and clears the focus if the window had
it. -/
def Focus.Unregister (f : Focus) (w : WindowID) : Focus :=
  { current := if f.current = some w then none else f.current
    history := f.history.filter (fun u => u ≠ w) }

/-- Modelled from the spec: `focus.Unset` of package `focus`, which clears
the focus and leaves the history as it is. -/
def Focus.Unset (f : Focus) (w : WindowID) : Focus :=
  { f with current := if f.current = some w then none else f.current }

/-- Modelled from the spec: the state of the view manager of package `view`,
the index of the active view and the members of each view. -/
structure View where
  active : Int
  members : Int → List WindowID

/-- Modelled from the spec: `view.Register` of package `view`, which adds the
window to the set of the active view. -/
def View.Register (v : View) (w : WindowID) : View :=
  { v with
    members := fun i =>
      if i = v.active ∧ w ∉ v.members i then w :: v.members i else v.members i }

/-- Modelled from the spec: `view.UnregisterAll` of package `view`, which
removes the window from the set of every view. -/
def View.UnregisterAll (v : View) (w : WindowID) : View :=
  { v with members := fun i => (v.members i).filter (fun u => u ≠ w) }

/-- Collaborators for the concrete focus tracker and view manager. Each
focus and view call has the effect described above on its own state; the
calls for which `fails` holds then return the error `external 1`, the others
succeed. The outside world has no state of its own. -/
def simOps (fails : Call → Bool) : Ops Focus View Unit where
  centerWID := fun _ w x =>
    (if fails (.centerWID w) then some (.external 1) else none, x)
  SetBorderWidth := fun w px x =>
    (if fails (.SetBorderWidth w px) then some (.external 1) else none, x)
  focusUnregister := fun f w x =>
    (if fails (.focusUnregister w) then some (.external 1) else none, f.Unregister w, x)
  viewUnregisterAll := fun v w x => (v.UnregisterAll w, x)
  focusUnset := fun f w x =>
    (if fails (.focusUnset w) then some (.external 1) else none, f.Unset w, x)
  focusRegister := fun f w x =>
    (if fails (.focusRegister w) then some (.external 1) else none, f.Register w, x)
  viewRegister := fun v w x => (v.Register w, x)

/-- The same grid with the concrete focus tracker and view manager, in which
window 7 is focused and is a member of view 0; the mutex is free. -/
def simGrid : Grid Focus View where
  screen := ⟨1920, 1080⟩
  margin := ⟨12, 12⟩
  pad := ⟨10, 10⟩
  border := 5
  cell := ⟨79, 44⟩
  points := []
  size := ⟨24, 24⟩
  focus := ⟨some 7, [7]⟩
  view := ⟨0, fun i => if i = 0 then [7] else []⟩
  mux := false

/-! ## Arithmetic of Go integers -/

theorem wrap_of_inInt64 {x : Int} (h : InInt64 x) : wrap x = x := by
  unfold InInt64 at h
  unfold wrap
  omega

theorem inInt64_wrap (x : Int) : InInt64 (wrap x) := by
  unfold InInt64 wrap
  omega

/-- Truncating division by two in terms of flooring division. -/
theorem tdiv_two (d : Int) :
    Int.tdiv d 2 = if 0 ≤ d then d / 2 else -((-d) / 2) := by
  split
  · next h => exact Int.tdiv_eq_ediv h (by decide)
  · next h =>
    have h1 : Int.tdiv d 2 = -(Int.tdiv (-d) 2) := by
      rw [Int.neg_tdiv]; simp
    rw [h1, Int.tdiv_eq_ediv (by omega) (by decide)]

/-- The product of the divisor and the truncated quotient lies between zero
and the dividend. -/
theorem mul_tdiv_between (a b : Int) :
    (0 ≤ a → 0 ≤ b * Int.tdiv a b ∧ b * Int.tdiv a b ≤ a) ∧
    (a ≤ 0 → a ≤ b * Int.tdiv a b ∧ b * Int.tdiv a b ≤ 0) := by
  have key : ∀ c : Int, 0 ≤ c → 0 ≤ b * Int.tdiv c b ∧ b * Int.tdiv c b ≤ c := by
    intro c hc
    have h := Int.tdiv_add_tmod c b
    have hr := Int.tmod_nonneg b hc
    refine ⟨?_, by omega⟩
    rcases le_total 0 b with hb | hb
    · exact Int.mul_nonneg hb (Int.tdiv_nonneg hc hb)
    · have := Int.tdiv_nonpos hc hb
      nlinarith
  refine ⟨key a, fun ha => ?_⟩
  have h := key (-a) (by omega)
  rw [Int.neg_tdiv] at h
  have e : b * -(Int.tdiv a b) = -(b * Int.tdiv a b) := by ring
  rw [e] at h
  omega

/-- The truncated quotient is no larger in size than the dividend. -/
theorem tdiv_between (a b : Int) :
    (0 ≤ a → 0 ≤ b → 0 ≤ Int.tdiv a b ∧ Int.tdiv a b ≤ a) := by
  intro ha hb
  refine ⟨Int.tdiv_nonneg ha hb, ?_⟩
  rw [Int.tdiv_eq_ediv ha hb]
  rcases hb.eq_or_lt with h0 | hpos
  · subst h0; simpa using ha
  · exact Int.ediv_le_self b ha

/-- Without overflow the Go expressions for the cell size and the margin of
one axis are the mathematical ones, and the second step cannot overflow
when the first does not. -/
theorem axis_exact (s m n : Int) (h : Exact s m n) :
    goQuoTrunc (goSub s (goMul 2 m)) n = Int.tdiv (s - 2 * m) n ∧
    goMul n (Int.tdiv (s - 2 * m) n) = n * Int.tdiv (s - 2 * m) n ∧
    goQuoTrunc (goSub s (goMul n (Int.tdiv (s - 2 * m) n))) 2 =
      Int.tdiv (s - n * Int.tdiv (s - 2 * m) n) 2 := by
  obtain ⟨hs, hm, ht, hc⟩ := h
  have e1 : goSub s (goMul 2 m) = s - 2 * m := by
    unfold goSub goMul
    rw [wrap_of_inInt64 hm, wrap_of_inInt64 ht]
  have e2 : goQuoTrunc (s - 2 * m) n = Int.tdiv (s - 2 * m) n := by
    unfold goQuoTrunc
    exact wrap_of_inInt64 hc
  have hp : InInt64 (n * Int.tdiv (s - 2 * m) n) ∧
      InInt64 (s - n * Int.tdiv (s - 2 * m) n) := by
    have hb := mul_tdiv_between (s - 2 * m) n
    generalize n * Int.tdiv (s - 2 * m) n = p at hb ⊢
    unfold InInt64 at hs hm ht ⊢
    omega
  have e3 : goMul n (Int.tdiv (s - 2 * m) n) = n * Int.tdiv (s - 2 * m) n :=
    wrap_of_inInt64 hp.1
  have e4 : goSub s (n * Int.tdiv (s - 2 * m) n) = s - n * Int.tdiv (s - 2 * m) n :=
    wrap_of_inInt64 hp.2
  refine ⟨by rw [e1, e2], e3, ?_⟩
  rw [e3, e4]
  unfold goQuoTrunc
  apply wrap_of_inInt64
  have hd := hp.2
  generalize s - n * Int.tdiv (s - 2 * m) n = d at hd ⊢
  rw [tdiv_two]
  unfold InInt64 at hd ⊢
  split <;> omega

/-- On one axis the leading margin `(s - n*c) / 2` and the trailing margin
differ by at most one, and not at all when `s - n*c` is even. -/
theorem axis_symmetric (s n c : Int) :
    |goQuoTrunc (goSub s (goMul n c)) 2 -
        trailing s (goQuoTrunc (goSub s (goMul n c)) 2) n c| ≤ 1 ∧
    (goSub s (goMul n c) % 2 = 0 →
      goQuoTrunc (goSub s (goMul n c)) 2 =
        trailing s (goQuoTrunc (goSub s (goMul n c)) 2) n c) := by
  unfold trailing goQuoTrunc goSub goMul
  generalize n * c = p
  rw [tdiv_two]
  rw [abs_le]
  unfold wrap
  split <;> omega

/-- When the collaborators succeed and neither count of the grid size is
zero, `New` returns the grid whose fields are computed as in the source. -/
theorem New_ok {F V : Type} (env : NewEnv F V) (opts : Options)
    (wid : WindowID) (pos : WPosition) (screen : WSize) (f : F) (v : V)
    (hW : opts.Size.W ≠ 0) (hH : opts.Size.H ≠ 0)
    (hRoot : env.Root = .ok wid)
    (hAttr : env.GetAttributes wid = .ok (pos, screen))
    (hFocus : env.focusNew opts.FocusTimeout opts.FocussedColour
      opts.UnfocussedColour = .ok f)
    (hView : env.viewNew screen opts.Border opts.InitialView = .ok v) :
    New env opts = .ok
      { screen := screen
        margin :=
          ⟨goQuoTrunc (goSub screen.W (goMul opts.Size.W
              (goQuoTrunc (goSub screen.W (goMul 2 opts.MinMargin.W)) opts.Size.W))) 2,
           goQuoTrunc (goSub screen.H (goMul opts.Size.H
              (goQuoTrunc (goSub screen.H (goMul 2 opts.MinMargin.H)) opts.Size.H))) 2⟩
        border := opts.Border
        pad := opts.Pad
        cell :=
          ⟨goQuoTrunc (goSub screen.W (goMul 2 opts.MinMargin.W)) opts.Size.W,
           goQuoTrunc (goSub screen.H (goMul 2 opts.MinMargin.H)) opts.Size.H⟩
        size := opts.Size
        focus := f
        view := v
        points := []
        mux := false } := by
  unfold New
  simp only [hRoot, hAttr, goQuo, hW, hH, hFocus, hView, if_false]

/-- The mathematical form of the symmetry of the margins of one axis. -/
theorem axis_symmetric_exact (s p : Int) :
    |Int.tdiv (s - p) 2 - (s - Int.tdiv (s - p) 2 - p)| ≤ 1 ∧
    ((s - p) % 2 = 0 → Int.tdiv (s - p) 2 = s - Int.tdiv (s - p) 2 - p) := by
  rw [tdiv_two, abs_le]
  split <;> omega

/-- On one axis with a positive number of cells and `0 ≤ 2*m ≤ s`, nothing
overflows, the margin is at least `m` and the grid ends at least `m` before
the end of the screen. -/
theorem axis_min_margin (s m n : Int) (hs : InInt64 s) (hm : 0 ≤ 2 * m)
    (hms : 2 * m ≤ s) (hn : 0 < n) :
    Exact s m n ∧
    m ≤ Int.tdiv (s - n * Int.tdiv (s - 2 * m) n) 2 ∧
    Int.tdiv (s - n * Int.tdiv (s - 2 * m) n) 2 + n * Int.tdiv (s - 2 * m) n ≤ s - m := by
  have hc := tdiv_between (s - 2 * m) n (by omega) (by omega)
  have hb := (mul_tdiv_between (s - 2 * m) n).1 (by omega)
  refine ⟨?_, ?_⟩
  · unfold Exact
    unfold InInt64 at hs ⊢
    omega
  · generalize n * Int.tdiv (s - 2 * m) n = p at hb ⊢
    rw [tdiv_two]
    split <;> omega

/-! ## Construction of the grid -/

/-- C1. When the window system reports a screen size and the grid size has
non-zero column and row counts, `New` builds a grid with, on each axis,
`cell = (screen - 2*MinMargin) / gridSize` and
`margin = (screen - gridSize*cell) / 2`, the operators being Go's (truncating
division, 64-bit integers); whenever no step overflows these are the
mathematical values `Int.tdiv (screen - 2*MinMargin) gridSize` and
`Int.tdiv (screen - gridSize*cell) 2`. -/
theorem New_cell_and_margin {F V : Type} (env : NewEnv F V) (opts : Options)
    (wid : WindowID) (pos : WPosition) (screen : WSize) (f : F) (v : V)
    (hW : opts.Size.W ≠ 0) (hH : opts.Size.H ≠ 0)
    (hRoot : env.Root = .ok wid)
    (hAttr : env.GetAttributes wid = .ok (pos, screen))
    (hFocus : env.focusNew opts.FocusTimeout opts.FocussedColour
      opts.UnfocussedColour = .ok f)
    (hView : env.viewNew screen opts.Border opts.InitialView = .ok v) :
    ∃ g : Grid F V, New env opts = .ok g ∧ g.screen = screen ∧ g.size = opts.Size ∧
      g.cell.W = goQuoTrunc (goSub screen.W (goMul 2 opts.MinMargin.W)) opts.Size.W ∧
      g.cell.H = goQuoTrunc (goSub screen.H (goMul 2 opts.MinMargin.H)) opts.Size.H ∧
      g.margin.W = goQuoTrunc (goSub screen.W (goMul opts.Size.W g.cell.W)) 2 ∧
      g.margin.H = goQuoTrunc (goSub screen.H (goMul opts.Size.H g.cell.H)) 2 ∧
      (Exact screen.W opts.MinMargin.W opts.Size.W →
        g.cell.W = Int.tdiv (screen.W - 2 * opts.MinMargin.W) opts.Size.W ∧
        g.margin.W = Int.tdiv (screen.W - opts.Size.W * g.cell.W) 2) ∧
      (Exact screen.H opts.MinMargin.H opts.Size.H →
        g.cell.H = Int.tdiv (screen.H - 2 * opts.MinMargin.H) opts.Size.H ∧
        g.margin.H = Int.tdiv (screen.H - opts.Size.H * g.cell.H) 2) := by
  refine ⟨_, New_ok env opts wid pos screen f v hW hH hRoot hAttr hFocus hView,
    rfl, rfl, rfl, rfl, rfl, rfl, ?_, ?_⟩
  · intro hx
    obtain ⟨a, _, c⟩ := axis_exact _ _ _ hx
    simp only
    rw [a]
    exact ⟨rfl, c⟩
  · intro hx
    obtain ⟨a, _, c⟩ := axis_exact _ _ _ hx
    simp only
    rw [a]
    exact ⟨rfl, c⟩

/-- Witness for C1: screen 1920x1080, minimum margin (10,10) and a 24x24
grid give cell (79,44) and margin (12,12). -/
theorem New_cell_and_margin_witness :
    ∃ g : Grid Unit Unit,
      New (screenEnv 1920 1080) (mainOptions 24 24) = .ok g ∧
      g.cell = ⟨79, 44⟩ ∧ g.margin = ⟨12, 12⟩ ∧
      g.cell.W = Int.tdiv (1920 - 2 * 10) 24 ∧
      g.margin.W = Int.tdiv (1920 - 24 * g.cell.W) 2 ∧
      g.cell.H = Int.tdiv (1080 - 2 * 10) 24 ∧
      g.margin.H = Int.tdiv (1080 - 24 * g.cell.H) 2 := by
  obtain ⟨g, hg, _, _, cw, ch, mw, mh, ew, eh⟩ :=
    New_cell_and_margin (screenEnv 1920 1080) (mainOptions 24 24) 1 ⟨0, 0⟩
      ⟨1920, 1080⟩ () () (by decide) (by decide) rfl rfl rfl rfl
  have hw := ew (by decide)
  have hh := eh (by decide)
  refine ⟨g, hg, ?_, ?_, hw.1, hw.2, hh.1, hh.2⟩
  · have e1 : g.cell.W = 79 := by rw [cw]; decide
    have e2 : g.cell.H = 44 := by rw [ch]; decide
    cases hc : g.cell
    rw [hc] at e1 e2
    simp only at e1 e2
    rw [e1, e2]
  · have c1 : g.cell.W = 79 := by rw [cw]; decide
    have c2 : g.cell.H = 44 := by rw [ch]; decide
    have e1 : g.margin.W = 12 := by rw [mw, c1]; decide
    have e2 : g.margin.H = 12 := by rw [mh, c2]; decide
    cases hc : g.margin
    rw [hc] at e1 e2
    simp only at e1 e2
    rw [e1, e2]

/-- C4. With positive column and row counts the margin computed by `New` is
symmetric up to rounding: on each axis the leading margin and the trailing
margin `screen - margin - gridSize*cell` (Go's operators) differ by at most
one pixel and are equal when `screen - gridSize*cell` is even; the same holds
of the mathematical trailing margin whenever no step overflows. -/
theorem New_margin_symmetric {F V : Type} (env : NewEnv F V) (opts : Options)
    (wid : WindowID) (pos : WPosition) (screen : WSize) (f : F) (v : V)
    (hW : 0 < opts.Size.W) (hH : 0 < opts.Size.H)
    (hRoot : env.Root = .ok wid)
    (hAttr : env.GetAttributes wid = .ok (pos, screen))
    (hFocus : env.focusNew opts.FocusTimeout opts.FocussedColour
      opts.UnfocussedColour = .ok f)
    (hView : env.viewNew screen opts.Border opts.InitialView = .ok v) :
    ∃ g : Grid F V, New env opts = .ok g ∧
      |g.margin.W - trailing screen.W g.margin.W opts.Size.W g.cell.W| ≤ 1 ∧
      (goSub screen.W (goMul opts.Size.W g.cell.W) % 2 = 0 →
        g.margin.W = trailing screen.W g.margin.W opts.Size.W g.cell.W) ∧
      |g.margin.H - trailing screen.H g.margin.H opts.Size.H g.cell.H| ≤ 1 ∧
      (goSub screen.H (goMul opts.Size.H g.cell.H) % 2 = 0 →
        g.margin.H = trailing screen.H g.margin.H opts.Size.H g.cell.H) ∧
      (Exact screen.W opts.MinMargin.W opts.Size.W →
        |g.margin.W - (screen.W - g.margin.W - opts.Size.W * g.cell.W)| ≤ 1 ∧
        ((screen.W - opts.Size.W * g.cell.W) % 2 = 0 →
          g.margin.W = screen.W - g.margin.W - opts.Size.W * g.cell.W)) ∧
      (Exact screen.H opts.MinMargin.H opts.Size.H →
        |g.margin.H - (screen.H - g.margin.H - opts.Size.H * g.cell.H)| ≤ 1 ∧
        ((screen.H - opts.Size.H * g.cell.H) % 2 = 0 →
          g.margin.H = screen.H - g.margin.H - opts.Size.H * g.cell.H)) := by
  refine ⟨_, New_ok env opts wid pos screen f v (by omega) (by omega) hRoot hAttr
    hFocus hView, ?_, ?_, ?_, ?_, ?_, ?_⟩
  · exact (axis_symmetric _ _ _).1
  · exact (axis_symmetric _ _ _).2
  · exact (axis_symmetric _ _ _).1
  · exact (axis_symmetric _ _ _).2
  · intro hx
    obtain ⟨a, _, c⟩ := axis_exact _ _ _ hx
    simp only
    rw [a, c]
    exact axis_symmetric_exact _ _
  · intro hx
    obtain ⟨a, _, c⟩ := axis_exact _ _ _ hx
    simp only
    rw [a, c]
    exact axis_symmetric_exact _ _

/-- Witness for C4: on a 1921x1080 screen with minimum margin (10,10) and a
24x24 grid the horizontal margins are 12 and 13, the vertical ones 12 and
12. -/
theorem New_margin_symmetric_witness :
    (0 : Int) < (mainOptions 24 24).Size.W ∧ (0 : Int) < (mainOptions 24 24).Size.H ∧
    ∃ g : Grid Unit Unit,
      New (screenEnv 1921 1080) (mainOptions 24 24) = .ok g ∧
      |g.margin.W - trailing 1921 g.margin.W 24 g.cell.W| ≤ 1 ∧
      |g.margin.H - trailing 1080 g.margin.H 24 g.cell.H| ≤ 1 := by
  refine ⟨by decide, by decide, ?_⟩
  obtain ⟨g, hg, a, _, b, _⟩ :=
    New_margin_symmetric (screenEnv 1921 1080) (mainOptions 24 24) 1 ⟨0, 0⟩
      ⟨1921, 1080⟩ () () (by decide) (by decide) rfl rfl rfl rfl
  exact ⟨g, hg, a, b⟩

/-- C10. With positive column and row counts, a screen extent that is a Go
integer and `0 ≤ 2*MinMargin ≤ screen` on each axis, the margin computed by
`New` is at least the configured minimum and the grid fits on the screen:
`margin + gridSize*cell ≤ screen - MinMargin` on each axis. -/
theorem New_margin_at_least_min {F V : Type} (env : NewEnv F V) (opts : Options)
    (wid : WindowID) (pos : WPosition) (screen : WSize) (f : F) (v : V)
    (hW : 0 < opts.Size.W) (hH : 0 < opts.Size.H)
    (hsW : InInt64 screen.W) (hsH : InInt64 screen.H)
    (hmW : 0 ≤ 2 * opts.MinMargin.W) (hmH : 0 ≤ 2 * opts.MinMargin.H)
    (hmsW : 2 * opts.MinMargin.W ≤ screen.W) (hmsH : 2 * opts.MinMargin.H ≤ screen.H)
    (hRoot : env.Root = .ok wid)
    (hAttr : env.GetAttributes wid = .ok (pos, screen))
    (hFocus : env.focusNew opts.FocusTimeout opts.FocussedColour
      opts.UnfocussedColour = .ok f)
    (hView : env.viewNew screen opts.Border opts.InitialView = .ok v) :
    ∃ g : Grid F V, New env opts = .ok g ∧
      opts.MinMargin.W ≤ g.margin.W ∧ opts.MinMargin.H ≤ g.margin.H ∧
      g.margin.W + opts.Size.W * g.cell.W ≤ screen.W - opts.MinMargin.W ∧
      g.margin.H + opts.Size.H * g.cell.H ≤ screen.H - opts.MinMargin.H := by
  obtain ⟨xW, aW, bW⟩ := axis_min_margin _ _ _ hsW hmW hmsW hW
  obtain ⟨xH, aH, bH⟩ := axis_min_margin _ _ _ hsH hmH hmsH hH
  obtain ⟨cW, _, mW⟩ := axis_exact _ _ _ xW
  obtain ⟨cH, _, mH⟩ := axis_exact _ _ _ xH
  refine ⟨_, New_ok env opts wid pos screen f v (by omega) (by omega) hRoot hAttr
    hFocus hView, ?_, ?_, ?_, ?_⟩
  · simp only; rw [cW, mW]; exact aW
  · simp only; rw [cH, mH]; exact aH
  · simp only; rw [cW, mW]; exact bW
  · simp only; rw [cH, mH]; exact bH

/-- Witness for C10: screen 1920x1080, minimum margin (10,10), grid 24x24. -/
theorem New_margin_at_least_min_witness :
    ∃ g : Grid Unit Unit,
      New (screenEnv 1920 1080) (mainOptions 24 24) = .ok g ∧
      (10 : Int) ≤ g.margin.W ∧ (10 : Int) ≤ g.margin.H ∧
      g.margin.W + 24 * g.cell.W ≤ 1920 - 10 ∧
      g.margin.H + 24 * g.cell.H ≤ 1080 - 10 :=
  New_margin_at_least_min (screenEnv 1920 1080) (mainOptions 24 24) 1 ⟨0, 0⟩
    ⟨1920, 1080⟩ () () (by decide) (by decide) (by decide) (by decide) (by decide)
    (by decide) (by decide) (by decide) rfl rfl rfl rfl

/-- C2 (the code falls short of it). On a 1920x1080 screen with the options
of `main.go` and a 24x24 grid `New` succeeds, but the grid it returns has an
empty `points` map: reading the entry of grid coordinate (1,1) gives the zero
position (0,0), while the margin offset by one cell is (91,56). -/
theorem New_leaves_points_empty :
    ∃ g : Grid Unit Unit,
      New (screenEnv 1920 1080) (mainOptions 24 24) = .ok g ∧
      g.points = [] ∧
      g.points.lookup ⟨1, 1⟩ = none ∧
      pointsAt g.points ⟨1, 1⟩ = ⟨0, 0⟩ ∧
      WPosition.Offset ⟨g.margin.W, g.margin.H⟩ ⟨goMul 1 g.cell.W, goMul 1 g.cell.H⟩
        = ⟨91, 56⟩ :=
  ⟨_, New_ok (screenEnv 1920 1080) (mainOptions 24 24) 1 ⟨0, 0⟩ ⟨1920, 1080⟩ () ()
    (by decide) (by decide) rfl rfl rfl rfl, rfl, rfl, rfl, by decide⟩

/-- C3 as stated fails. With the screen reported as 1920x1080 and every
collaborator succeeding, a grid size of (-24,-24) makes `New` return a grid
and no error, and a grid size of (0,24) makes it panic in the division
instead of returning an error. -/
theorem New_no_error_on_bad_size :
    (∃ g : Grid Unit Unit,
      New (screenEnv 1920 1080) (mainOptions (-24) (-24)) = .ok g ∧
      g.size = ⟨-24, -24⟩ ∧ g.cell = ⟨-79, -44⟩) ∧
    New (screenEnv 1920 1080) (mainOptions 0 24) = .panic ∧
    (∀ e : Error, New (screenEnv 1920 1080) (mainOptions (-24) (-24)) ≠ .error e) ∧
    (∀ e : Error, New (screenEnv 1920 1080) (mainOptions 0 24) ≠ .error e) := by
  refine ⟨⟨_, New_ok (screenEnv 1920 1080) (mainOptions (-24) (-24)) 1 ⟨0, 0⟩
    ⟨1920, 1080⟩ () () (by decide) (by decide) rfl rfl rfl rfl, rfl, by decide⟩,
    by decide, ?_, ?_⟩
  · intro e h
    rw [New_ok (screenEnv 1920 1080) (mainOptions (-24) (-24)) 1 ⟨0, 0⟩
      ⟨1920, 1080⟩ () () (by decide) (by decide) rfl rfl rfl rfl] at h
    cases h
  · intro e h
    have hp : New (screenEnv 1920 1080) (mainOptions 0 24) = .panic := by decide
    rw [hp] at h
    cases h

/-- C3, amended. `New` does not examine the grid size. When both counts are
non-zero, negative ones included, `New` does not panic, it returns a grid
with that size whenever the two window-system queries, `focus.New` and
`view.New` succeed, and an error it returns is the error of one of these
collaborators. -/
theorem New_error_only_from_collaborators {F V : Type} (env : NewEnv F V)
    (opts : Options) (hW : opts.Size.W ≠ 0) (hH : opts.Size.H ≠ 0) :
    New env opts ≠ .panic ∧
    (∀ wid pos screen f v,
      env.Root = .ok wid →
      env.GetAttributes wid = .ok (pos, screen) →
      env.focusNew opts.FocusTimeout opts.FocussedColour opts.UnfocussedColour = .ok f →
      env.viewNew screen opts.Border opts.InitialView = .ok v →
      ∃ g : Grid F V, New env opts = .ok g ∧ g.size = opts.Size ∧ g.screen = screen) ∧
    (∀ e, New env opts = .error e →
      env.Root = .error e ∨
      ∃ wid, env.Root = .ok wid ∧
        (env.GetAttributes wid = .error e ∨
         ∃ pos screen, env.GetAttributes wid = .ok (pos, screen) ∧
          (env.focusNew opts.FocusTimeout opts.FocussedColour opts.UnfocussedColour
              = .error e ∨
           env.viewNew screen opts.Border opts.InitialView = .error e))) := by
  refine ⟨?_, ?_, ?_⟩
  · unfold New
    simp only [goQuo, hW, hH, if_false]
    split <;> try (split <;> try (split <;> try split))
    all_goals simp
  · intro wid pos screen f v hRoot hAttr hFocus hView
    exact ⟨_, New_ok env opts wid pos screen f v hW hH hRoot hAttr hFocus hView, rfl, rfl⟩
  · intro e
    unfold New
    simp only [goQuo, hW, hH, if_false]
    cases hR : env.Root with
    | error e1 =>
      simp only
      intro h
      cases h
      exact Or.inl rfl
    | ok wid =>
      simp only
      cases hA : env.GetAttributes wid with
      | error e1 =>
        simp only
        intro h
        cases h
        exact Or.inr ⟨wid, rfl, Or.inl hA⟩
      | ok ps =>
        obtain ⟨pos, screen⟩ := ps
        simp only
        cases hF : env.focusNew opts.FocusTimeout opts.FocussedColour
          opts.UnfocussedColour with
        | error e1 =>
          simp only
          intro h
          cases h
          exact Or.inr ⟨wid, rfl, Or.inr ⟨pos, screen, hA, Or.inl rfl⟩⟩
        | ok f =>
          simp only
          cases hV : env.viewNew screen opts.Border opts.InitialView with
          | error e1 =>
            simp only
            intro h
            cases h
            exact Or.inr ⟨wid, rfl, Or.inr ⟨pos, screen, hA, Or.inr hV⟩⟩
          | ok v =>
            simp only
            intro h
            cases h

/-- Witness for the amended C3: a 1920x1080 screen and a grid size of
(-24,-24). -/
theorem New_error_only_from_collaborators_witness :
    (mainOptions (-24) (-24)).Size.W ≠ 0 ∧ (mainOptions (-24) (-24)).Size.H ≠ 0 ∧
    New (screenEnv 1920 1080) (mainOptions (-24) (-24)) ≠ .panic :=
  ⟨by decide, by decide,
    (New_error_only_from_collaborators (screenEnv 1920 1080) (mainOptions (-24) (-24))
      (by decide) (by decide)).1⟩

/-! ## Rectangles -/

/-- C8. `r.Grow(s)` moves `TopLeft` by `-s` and `BottomRight` by `+s` on each
axis, so `TopLeft + BottomRight` is unchanged on each axis and
`r.Grow(s).Size() = r.Size().Add(s.Scale(2))`, all operators being Go's; the
sums are unchanged as mathematical integers too whenever the two corners move
without overflow. -/
theorem Grow_keeps_centre (r : Rectangle) (s : Size) :
    (r.Grow s).TopLeft = ⟨goSub r.TopLeft.X s.W, goSub r.TopLeft.Y s.H⟩ ∧
    (r.Grow s).BottomRight = ⟨goAdd r.BottomRight.X s.W, goAdd r.BottomRight.Y s.H⟩ ∧
    goAdd (r.Grow s).TopLeft.X (r.Grow s).BottomRight.X
      = goAdd r.TopLeft.X r.BottomRight.X ∧
    goAdd (r.Grow s).TopLeft.Y (r.Grow s).BottomRight.Y
      = goAdd r.TopLeft.Y r.BottomRight.Y ∧
    (r.Grow s).Size = r.Size.Add (s.Scale 2) ∧
    (InInt64 (r.TopLeft.X - s.W) → InInt64 (r.BottomRight.X + s.W) →
      (r.Grow s).TopLeft.X + (r.Grow s).BottomRight.X
        = r.TopLeft.X + r.BottomRight.X) ∧
    (InInt64 (r.TopLeft.Y - s.H) → InInt64 (r.BottomRight.Y + s.H) →
      (r.Grow s).TopLeft.Y + (r.Grow s).BottomRight.Y
        = r.TopLeft.Y + r.BottomRight.Y) := by
  obtain ⟨⟨x1, y1⟩, ⟨x2, y2⟩⟩ := r
  obtain ⟨w, h⟩ := s
  simp only [Rectangle.Grow, Rectangle.Size, Position.Offset, Position.Diff, Size.Add,
    Size.Scale, goAdd, goSub, goMul, wrap, InInt64, Position.mk.injEq, Size.mk.injEq]
  refine ⟨⟨?_, ?_⟩, trivial, ?_, ?_, ⟨?_, ?_⟩, ?_, ?_⟩ <;> omega

/-- Witness for C8: the rectangle (100,200)-(300,500) grown by (15,25). -/
theorem Grow_keeps_centre_witness :
    (Rectangle.Grow ⟨⟨100, 200⟩, ⟨300, 500⟩⟩ ⟨15, 25⟩) = ⟨⟨85, 175⟩, ⟨315, 525⟩⟩ ∧
    (85 : Int) + 315 = 100 + 300 ∧ (175 : Int) + 525 = 200 + 500 := by
  have h := Grow_keeps_centre ⟨⟨100, 200⟩, ⟨300, 500⟩⟩ ⟨15, 25⟩
  exact ⟨by decide, h.2.2.2.2.2.1 (by decide) (by decide),
    h.2.2.2.2.2.2 (by decide) (by decide)⟩

/-! ## The dispatcher -/

theorem calls_append (l₁ l₂ : List Action) : calls (l₁ ++ l₂) = calls l₁ ++ calls l₂ := by
  induction l₁ with
  | nil => rfl
  | cons a l ih =>
    cases a <;> simp [calls, ih]

/-- What one iteration does when the mutex is free at its start: either it
completes, with the mutex free again, the border width unchanged and exactly
the calls of the table made, none failing; or a call fails, and the function
returns that error with the mutex held. -/
theorem handle_cases {F V X : Type} (ops : Ops F V X) (ev : Event) (s : St F V X)
    (hfree : s.g.mux = false) :
    ((handle ops ev s).2 = none ∧ (handle ops ev s).1.g.mux = false ∧
      (handle ops ev s).1.g.border = s.g.border ∧
      ∃ l, (handle ops ev s).1.log = s.log ++ l ∧ calls l = specCalls s.g.border ev ∧
        ∀ a ∈ l, a.failed = false) ∨
    (∃ e l, (handle ops ev s).2 = some (.returned e) ∧ (handle ops ev s).1.g.mux = true ∧
      (handle ops ev s).1.log = s.log ++ l ∧ ∃ a ∈ l, a.failed = true) := by
  obtain ⟨typ, w⟩ := ev
  cases typ with
  | CreateNotifyEvent =>
    simp only [handle, St.emit, St.locked, St.unlocked, hfree, Bool.false_eq_true,
      if_false]
    generalize ops.centerWID _ _ _ = r1
    obtain ⟨_ | e, x1⟩ := r1
    · simp only []
      generalize ops.SetBorderWidth _ _ _ = r2
      obtain ⟨_ | e, x2⟩ := r2
      · left
        simp [calls, specCalls, Action.failed]
      · right
        refine ⟨e, _, rfl, rfl, by simp; rfl, ?_⟩
        simp [Action.failed]
    · right
      refine ⟨e, _, rfl, rfl, by simp; rfl, ?_⟩
      simp [Action.failed]
  | DestroyNotifyEvent =>
    simp only [handle, St.emit, St.locked, St.unlocked, hfree, Bool.false_eq_true,
      if_false]
    generalize ops.focusUnregister _ _ _ = r1
    obtain ⟨_ | e, f1, x1⟩ := r1
    · left
      simp [calls, specCalls, Action.failed]
    · right
      refine ⟨e, _, rfl, rfl, by simp; rfl, ?_⟩
      simp [Action.failed]
  | UnmapNotifyEvent =>
    simp only [handle, St.emit, St.locked, St.unlocked, hfree, Bool.false_eq_true,
      if_false]
    generalize ops.focusUnset _ _ _ = r1
    obtain ⟨_ | e, f1, x1⟩ := r1
    · left
      simp [calls, specCalls, Action.failed]
    · right
      refine ⟨e, _, rfl, rfl, by simp; rfl, ?_⟩
      simp [Action.failed]
  | MapNotifyEvent =>
    simp only [handle, St.emit, St.locked, St.unlocked, hfree, Bool.false_eq_true,
      if_false]
    generalize ops.focusRegister _ _ _ = r1
    obtain ⟨_ | e, f1, x1⟩ := r1
    · left
      simp [calls, specCalls, Action.failed]
    · right
      refine ⟨e, _, rfl, rfl, by simp; rfl, ?_⟩
      simp [Action.failed]
  | other n =>
    left
    simp [handle, hfree, specCalls, calls]

theorem loop_cons_none {F V X : Type} (ops : Ops F V X) (ev : Event) (rest : List Event)
    (s : St F V X) (h : (handle ops ev s).2 = none) :
    loop ops (ev :: rest) s = loop ops rest (handle ops ev s).1 := by
  rw [loop]
  generalize handle ops ev s = r at h
  obtain ⟨s', o⟩ := r
  simp only at h
  subst h
  rfl

theorem loop_cons_some {F V X : Type} (ops : Ops F V X) (ev : Event) (rest : List Event)
    (s : St F V X) (ex : Exit) (h : (handle ops ev s).2 = some ex) :
    loop ops (ev :: rest) s = ((handle ops ev s).1, some ex) := by
  rw [loop]
  generalize handle ops ev s = r at h
  obtain ⟨s', o⟩ := r
  simp only at h
  subst h
  rfl

/-- The loop over a sequence is the loop over its first part and, unless
that left the function, the loop over the rest from the state reached. -/
theorem loop_append {F V X : Type} (ops : Ops F V X) (pre post : List Event)
    (s s1 : St F V X) (h : loop ops pre s = (s1, none)) :
    loop ops (pre ++ post) s = loop ops post s1 := by
  induction pre generalizing s with
  | nil =>
    simp only [loop, Prod.mk.injEq, and_true] at h
    subst h
    rfl
  | cons ev rest ih =>
    cases ho : (handle ops ev s).2 with
    | none =>
      rw [List.cons_append, loop_cons_none ops ev _ s ho]
      rw [loop_cons_none ops ev _ s ho] at h
      exact ih _ h
    | some ex =>
      rw [loop_cons_some ops ev _ s ex ho] at h
      cases h

/-- A loop that starts with the mutex free and runs to the end of the
sequence leaves the mutex free. -/
theorem loop_none_free {F V X : Type} (ops : Ops F V X) (evs : List Event)
    (s s1 : St F V X) (hfree : s.g.mux = false) (h : loop ops evs s = (s1, none)) :
    s1.g.mux = false := by
  induction evs generalizing s with
  | nil =>
    simp only [loop, Prod.mk.injEq, and_true] at h
    subst h
    exact hfree
  | cons ev rest ih =>
    rcases handle_cases ops ev s hfree with ⟨ho, hm, _, _⟩ | ⟨e, l, ho, _, _, _⟩
    · rw [loop_cons_none ops ev _ s ho] at h
      exact ih _ hm h
    · rw [loop_cons_some ops ev _ s _ ho] at h
      cases h

theorem calls_specRecord (border : Pixels) (ev : Event) :
    calls (specRecord border ev) = specCalls border ev := by
  obtain ⟨typ, w⟩ := ev
  cases typ <;> rfl

theorem calls_flatMap_specRecord (border : Pixels) (evs : List Event) :
    calls (evs.flatMap (specRecord border)) = evs.flatMap (specCalls border) := by
  induction evs with
  | nil => rfl
  | cons ev rest ih =>
    rw [List.flatMap_cons, List.flatMap_cons, calls_append, calls_specRecord, ih]

theorem perform_keeps {F V X : Type} (ops : Ops F V X) (c : Call) (g : Grid F V) (x : X) :
    (perform ops c g x).2.1.mux = g.mux ∧ (perform ops c g x).2.1.border = g.border := by
  cases c <;> exact ⟨rfl, rfl⟩

theorem performAll_keeps {F V X : Type} (ops : Ops F V X) (cs : List Call) (g : Grid F V)
    (x : X) :
    (performAll ops cs g x).1.mux = g.mux ∧ (performAll ops cs g x).1.border = g.border := by
  induction cs generalizing g x with
  | nil => exact ⟨rfl, rfl⟩
  | cons c cs ih =>
    obtain ⟨h1, h2⟩ := ih (perform ops c g x).2.1 (perform ops c g x).2.2
    obtain ⟨k1, k2⟩ := perform_keeps ops c g x
    exact ⟨by rw [performAll, h1, k1], by rw [performAll, h2, k2]⟩

theorem performAll_append {F V X : Type} (ops : Ops F V X) (cs ds : List Call)
    (g : Grid F V) (x : X) :
    performAll ops (cs ++ ds) g x =
      performAll ops ds (performAll ops cs g x).1 (performAll ops cs g x).2 := by
  induction cs generalizing g x with
  | nil => rfl
  | cons c cs ih =>
    rw [List.cons_append, performAll, performAll, ih]

theorem allSucceed_append {F V X : Type} (ops : Ops F V X) (cs ds : List Call)
    (g : Grid F V) (x : X) :
    allSucceed ops (cs ++ ds) g x =
      (allSucceed ops cs g x &&
        allSucceed ops ds (performAll ops cs g x).1 (performAll ops cs g x).2) := by
  induction cs generalizing g x with
  | nil => simp [allSucceed, performAll]
  | cons c cs ih =>
    rw [List.cons_append, allSucceed, allSucceed, performAll, ih, Bool.and_assoc]

/-- One iteration when the mutex is free and the calls of the table for the
notification succeed: the iteration completes, it leaves the grid and the
world that these calls leave, and it adds the record of the table. -/
theorem handle_ok {F V X : Type} (ops : Ops F V X) (ev : Event) (s : St F V X)
    (hfree : s.g.mux = false)
    (hok : allSucceed ops (specCalls s.g.border ev) s.g s.x = true) :
    handle ops ev s =
      (⟨(performAll ops (specCalls s.g.border ev) s.g s.x).1,
        (performAll ops (specCalls s.g.border ev) s.g s.x).2,
        s.log ++ specRecord s.g.border ev⟩, none) := by
  obtain ⟨g, x, log⟩ := s
  obtain ⟨typ, w⟩ := ev
  simp only at hfree
  cases typ with
  | CreateNotifyEvent =>
    simp only [specCalls, allSucceed, perform, Bool.and_true, Bool.and_eq_true,
      Option.isNone_iff_eq_none] at hok
    obtain ⟨h1, h2⟩ := hok
    simp only [handle, St.emit, St.locked, St.unlocked, hfree, Bool.false_eq_true,
      if_false, specCalls, specRecord, performAll, perform]
    generalize ops.centerWID _ _ _ = r1 at h1 h2 ⊢
    obtain ⟨o1, x1⟩ := r1
    simp only at h1 h2 ⊢
    subst h1
    simp only []
    generalize ops.SetBorderWidth _ _ _ = r2 at h2 ⊢
    obtain ⟨o2, x2⟩ := r2
    simp only at h2 ⊢
    subst h2
    obtain ⟨_, _, _, _, _, _, _, _, _, mux⟩ := g
    simp only at hfree
    subst hfree
    simp
  | DestroyNotifyEvent =>
    simp only [specCalls, allSucceed, perform, Bool.and_true, Bool.and_eq_true,
      Option.isNone_iff_eq_none, Option.isNone_none] at hok
    simp only [handle, St.emit, St.locked, St.unlocked, hfree, Bool.false_eq_true,
      if_false, specCalls, specRecord, performAll, perform]
    generalize ops.focusUnregister _ _ _ = r1 at hok ⊢
    obtain ⟨o1, f1, x1⟩ := r1
    simp only at hok ⊢
    subst hok
    simp only []
    obtain ⟨_, _, _, _, _, _, _, _, _, mux⟩ := g
    simp only at hfree
    subst hfree
    simp
  | UnmapNotifyEvent =>
    simp only [specCalls, allSucceed, perform, Bool.and_true, Bool.and_eq_true,
      Option.isNone_iff_eq_none, Option.isNone_none] at hok
    simp only [handle, St.emit, St.locked, St.unlocked, hfree, Bool.false_eq_true,
      if_false, specCalls, specRecord, performAll, perform]
    generalize ops.focusUnset _ _ _ = r1 at hok ⊢
    obtain ⟨o1, f1, x1⟩ := r1
    simp only at hok ⊢
    subst hok
    simp only []
    obtain ⟨_, _, _, _, _, _, _, _, _, mux⟩ := g
    simp only at hfree
    subst hfree
    simp
  | MapNotifyEvent =>
    simp only [specCalls, allSucceed, perform, Bool.and_true, Bool.and_eq_true,
      Option.isNone_iff_eq_none, Option.isNone_none] at hok
    simp only [handle, St.emit, St.locked, St.unlocked, hfree, Bool.false_eq_true,
      if_false, specCalls, specRecord, performAll, perform]
    generalize ops.focusRegister _ _ _ = r1 at hok ⊢
    obtain ⟨o1, f1, x1⟩ := r1
    simp only at hok ⊢
    subst hok
    simp only []
    obtain ⟨_, _, _, _, _, _, _, _, _, mux⟩ := g
    simp only at hfree
    subst hfree
    simp
  | other n =>
    simp [handle, specCalls, specRecord, performAll]

/-- The loop when the mutex is free and the calls of the table for the
whole sequence succeed: it runs to the end, leaves the grid and the world
that these calls leave, and adds the record of the table for each
notification in turn. -/
theorem loop_ok {F V X : Type} (ops : Ops F V X) (evs : List Event) (s : St F V X)
    (hfree : s.g.mux = false)
    (hok : allSucceed ops (evs.flatMap (specCalls s.g.border)) s.g s.x = true) :
    loop ops evs s =
      (⟨(performAll ops (evs.flatMap (specCalls s.g.border)) s.g s.x).1,
        (performAll ops (evs.flatMap (specCalls s.g.border)) s.g s.x).2,
        s.log ++ evs.flatMap (specRecord s.g.border)⟩, none) := by
  induction evs generalizing s with
  | nil => simp [loop, performAll]
  | cons ev rest ih =>
    rw [List.flatMap_cons, allSucceed_append, Bool.and_eq_true] at hok
    obtain ⟨hok1, hok2⟩ := hok
    have hh := handle_ok ops ev s hfree hok1
    obtain ⟨km, kb⟩ := performAll_keeps ops (specCalls s.g.border ev) s.g s.x
    have ho : (handle ops ev s).2 = none := by rw [hh]
    rw [loop_cons_none ops ev rest s ho, hh]
    have hi := ih ⟨(performAll ops (specCalls s.g.border ev) s.g s.x).1,
      (performAll ops (specCalls s.g.border ev) s.g s.x).2,
      s.log ++ specRecord s.g.border ev⟩ (by simp only [km, hfree])
      (by simp only [kb]; exact hok2)
    simp only [kb] at hi
    rw [hi, List.flatMap_cons, List.flatMap_cons, performAll_append, List.append_assoc]

/-- C5. When the mutex is free at the start and every collaborator call of
the run succeeds (the calls of the table, applied in order from the initial
grid and world, all return no error), `WatchWindowEvents` goes through the
notifications in the order of delivery up to the closing of the channel and
performs for each exactly the calls of the table, one notification at a time
under the lock: `centerWID` then `SetBorderWidth` with the border of the grid
for Created, `focus.Unregister` then `view.UnregisterAll` for Destroyed,
`focus.Unset` for Unmapped, `focus.Register` then `view.Register` for Mapped.
The grid and the world it leaves are those left by applying these
collaborator calls in that order, and its record, hence its sequence of
calls, is the concatenation of the per-notification ones. -/
theorem WatchWindowEvents_trace {F V X : Type} (ops : Ops F V X) (g : Grid F V) (x : X)
    (evs : List Event) (hfree : g.mux = false)
    (hok : allSucceed ops (evs.flatMap (specCalls g.border)) g x = true) :
    (WatchWindowEvents ops g x evs).2 = .returned .channelClosed ∧
    ((WatchWindowEvents ops g x evs).1.g, (WatchWindowEvents ops g x evs).1.x)
      = performAll ops (evs.flatMap (specCalls g.border)) g x ∧
    (WatchWindowEvents ops g x evs).1.log = evs.flatMap (specRecord g.border) ∧
    calls (WatchWindowEvents ops g x evs).1.log = evs.flatMap (specCalls g.border) := by
  have hl := loop_ok ops evs ⟨g, x, []⟩ hfree hok
  have hw : WatchWindowEvents ops g x evs =
      (⟨(performAll ops (evs.flatMap (specCalls g.border)) g x).1,
        (performAll ops (evs.flatMap (specCalls g.border)) g x).2,
        evs.flatMap (specRecord g.border)⟩, .returned .channelClosed) := by
    unfold WatchWindowEvents
    rw [hl]
    simp
  rw [hw]
  exact ⟨rfl, rfl, rfl, calls_flatMap_specRecord _ _⟩

/-- Witness for C5: window 3 is created, mapped, unmapped and destroyed, with
collaborators that succeed and whose world is the list of the calls they have
received. That list, and the calls of the record, are the seven calls of the
table in order. -/
theorem WatchWindowEvents_trace_witness :
    mainGrid.mux = false ∧
    (WatchWindowEvents recordingOps mainGrid []
      [⟨.CreateNotifyEvent, 3⟩, ⟨.MapNotifyEvent, 3⟩, ⟨.UnmapNotifyEvent, 3⟩,
       ⟨.DestroyNotifyEvent, 3⟩]).2 = .returned .channelClosed ∧
    (WatchWindowEvents recordingOps mainGrid []
      [⟨.CreateNotifyEvent, 3⟩, ⟨.MapNotifyEvent, 3⟩, ⟨.UnmapNotifyEvent, 3⟩,
       ⟨.DestroyNotifyEvent, 3⟩]).1.x =
      [.centerWID 3, .SetBorderWidth 3 5, .focusRegister 3, .viewRegister 3,
       .focusUnset 3, .focusUnregister 3, .viewUnregisterAll 3] ∧
    calls (WatchWindowEvents recordingOps mainGrid []
      [⟨.CreateNotifyEvent, 3⟩, ⟨.MapNotifyEvent, 3⟩, ⟨.UnmapNotifyEvent, 3⟩,
       ⟨.DestroyNotifyEvent, 3⟩]).1.log =
      [.centerWID 3, .SetBorderWidth 3 5, .focusRegister 3, .viewRegister 3,
       .focusUnset 3, .focusUnregister 3, .viewUnregisterAll 3] := by
  have h := WatchWindowEvents_trace recordingOps mainGrid []
    [⟨.CreateNotifyEvent, 3⟩, ⟨.MapNotifyEvent, 3⟩, ⟨.UnmapNotifyEvent, 3⟩,
     ⟨.DestroyNotifyEvent, 3⟩] rfl (by decide)
  refine ⟨rfl, h.1, ?_, h.2.2.2⟩
  have hx := congrArg Prod.snd h.2.1
  simp only at hx
  rw [hx]
  decide

/-- The iteration for a Destroyed notification when the mutex is free and
`focus.Unregister` returns no error. -/
theorem handle_destroy_ok {F V X : Type} (ops : Ops F V X) (w : WindowID) (s : St F V X)
    (hfree : s.g.mux = false)
    (hok : (ops.focusUnregister s.g.focus w s.x).1 = none) :
    (handle ops ⟨.DestroyNotifyEvent, w⟩ s).2 = none ∧
    (handle ops ⟨.DestroyNotifyEvent, w⟩ s).1.g.focus
      = (ops.focusUnregister s.g.focus w s.x).2.1 ∧
    (handle ops ⟨.DestroyNotifyEvent, w⟩ s).1.g.view
      = (ops.viewUnregisterAll s.g.view w (ops.focusUnregister s.g.focus w s.x).2.2).1 ∧
    (handle ops ⟨.DestroyNotifyEvent, w⟩ s).1.log
      = s.log ++ [.lock, .call (.focusUnregister w) none,
          .call (.viewUnregisterAll w) none, .unlock] := by
  simp only [handle, St.emit, St.locked, St.unlocked, hfree, Bool.false_eq_true, if_false]
  generalize ops.focusUnregister _ _ _ = r1 at hok ⊢
  obtain ⟨o, f1, x1⟩ := r1
  simp only at hok
  subst hok
  simp

/-- The iteration for a Created notification when the mutex is free and
`centerWID` returns an error. -/
theorem handle_create_error {F V X : Type} (ops : Ops F V X) (w : WindowID) (s : St F V X)
    (e : Error) (x' : X) (hfree : s.g.mux = false)
    (hfail : ops.centerWID { s.g with mux := true } w s.x = (some e, x')) :
    (handle ops ⟨.CreateNotifyEvent, w⟩ s).2 = some (.returned e) ∧
    (handle ops ⟨.CreateNotifyEvent, w⟩ s).1.log
      = s.log ++ [.sleep 100, .lock, .call (.centerWID w) (some e)] ∧
    (handle ops ⟨.CreateNotifyEvent, w⟩ s).1.x = x' ∧
    (handle ops ⟨.CreateNotifyEvent, w⟩ s).1.g.focus = s.g.focus ∧
    (handle ops ⟨.CreateNotifyEvent, w⟩ s).1.g.view = s.g.view := by
  simp only [handle, St.emit, St.locked, St.unlocked, hfree, Bool.false_eq_true, if_false]
  simp only [hfree] at hfail
  rw [hfail]
  simp

/-- The result of `WatchWindowEvents` in terms of the loop. -/
theorem WatchWindowEvents_of_loop {F V X : Type} (ops : Ops F V X) (g : Grid F V) (x : X)
    (evs : List Event) :
    (WatchWindowEvents ops g x evs).1 = (loop ops evs ⟨g, x, []⟩).1 ∧
    (WatchWindowEvents ops g x evs).2 =
      ((loop ops evs ⟨g, x, []⟩).2).getD (.returned .channelClosed) := by
  unfold WatchWindowEvents
  generalize loop ops evs ⟨g, x, []⟩ = r
  obtain ⟨s', _ | ex⟩ := r <;> exact ⟨rfl, rfl⟩

/-- C6 as stated fails. Window 7 is focused and a member of view 0; the
Destroyed notification for it arrives and `focus.Unregister(7)` returns an
error. `WatchWindowEvents` returns that error without calling
`view.UnregisterAll`, and 7 is still a member of view 0 (although
`focus.Unregister` has removed it from the focus history). -/
theorem Destroyed_with_failing_unregister_keeps_member :
    (WatchWindowEvents (simOps (failing (.focusUnregister 7))) simGrid ()
      [⟨.DestroyNotifyEvent, 7⟩]).2 = .returned (.external 1) ∧
    7 ∈ (WatchWindowEvents (simOps (failing (.focusUnregister 7))) simGrid ()
      [⟨.DestroyNotifyEvent, 7⟩]).1.g.view.members 0 ∧
    7 ∉ (WatchWindowEvents (simOps (failing (.focusUnregister 7))) simGrid ()
      [⟨.DestroyNotifyEvent, 7⟩]).1.g.focus.history ∧
    calls (WatchWindowEvents (simOps (failing (.focusUnregister 7))) simGrid ()
      [⟨.DestroyNotifyEvent, 7⟩]).1.log = [.focusUnregister 7] := by
  decide

/-- C6, amended. Let `focus.Unregister` remove the window from the focus
history (as `history` reads it off the tracker) when it succeeds, and
`view.UnregisterAll` remove it from the set of every view (as `members` reads
them off the view manager). When the dispatcher, started with the mutex
free, has gone through the notifications `pre` and then receives the
Destroyed notification for `w`, and `focus.Unregister(w)` returns no error,
it calls `focus.Unregister(w)` and then `view.UnregisterAll(w)` under the
lock, and afterwards `w` is absent from the focus history and from the set of
every view. -/
theorem Destroyed_removes_window {F V X : Type} (ops : Ops F V X)
    (history : F → List WindowID) (members : V → Int → List WindowID)
    (hU : ∀ f w x, (ops.focusUnregister f w x).1 = none →
      w ∉ history (ops.focusUnregister f w x).2.1)
    (hA : ∀ v w x i, w ∉ members (ops.viewUnregisterAll v w x).1 i)
    (g : Grid F V) (x : X) (pre : List Event) (w : WindowID) (s1 : St F V X)
    (hfree : g.mux = false)
    (hpre : loop ops pre ⟨g, x, []⟩ = (s1, none))
    (hok : (ops.focusUnregister s1.g.focus w s1.x).1 = none) :
    ∃ s2 : St F V X,
      loop ops (pre ++ [⟨.DestroyNotifyEvent, w⟩]) ⟨g, x, []⟩ = (s2, none) ∧
      (WatchWindowEvents ops g x (pre ++ [⟨.DestroyNotifyEvent, w⟩])).1 = s2 ∧
      w ∉ history s2.g.focus ∧ (∀ i, w ∉ members s2.g.view i) ∧
      s2.log = s1.log ++ [.lock, .call (.focusUnregister w) none,
        .call (.viewUnregisterAll w) none, .unlock] := by
  have hf1 : s1.g.mux = false := loop_none_free ops pre _ s1 hfree hpre
  obtain ⟨h1, h2, h3, h4⟩ := handle_destroy_ok ops w s1 hf1 hok
  have hl : loop ops (pre ++ [⟨.DestroyNotifyEvent, w⟩]) ⟨g, x, []⟩
      = ((handle ops ⟨.DestroyNotifyEvent, w⟩ s1).1, none) := by
    rw [loop_append ops pre _ _ s1 hpre, loop_cons_none ops _ _ s1 h1]
    rfl
  refine ⟨_, hl, ?_, ?_, ?_, h4⟩
  · rw [(WatchWindowEvents_of_loop ops g x _).1, hl]
  · rw [h2]
    exact hU _ _ _ hok
  · intro i
    rw [h3]
    exact hA _ _ _ i

/-- Witness for the amended C6: window 7 is mapped and then destroyed, and no
call fails. -/
theorem Destroyed_removes_window_witness :
    ∃ s2 : St Focus View Unit,
      (WatchWindowEvents (simOps noFailure) simGrid ()
        ([⟨.MapNotifyEvent, 7⟩] ++ [⟨.DestroyNotifyEvent, 7⟩])).1 = s2 ∧
      7 ∉ s2.g.focus.history ∧ (∀ i, 7 ∉ s2.g.view.members i) := by
  obtain ⟨s2, _, h2, h3, h4, _⟩ :=
    Destroyed_removes_window (simOps noFailure) Focus.history View.members
      (fun f w x _ => by simp [simOps, Focus.Unregister])
      (fun v w x i => by simp [simOps, View.UnregisterAll])
      simGrid () [⟨.MapNotifyEvent, 7⟩] 7
      (loop (simOps noFailure) [⟨.MapNotifyEvent, 7⟩] ⟨simGrid, (), []⟩).1
      rfl rfl rfl
  exact ⟨s2, h2, h3, h4⟩

/-- C7 as stated fails. Window 7 is created and `centerWID(7)` returns an
error, then window 8 is mapped. `WatchWindowEvents` returns the error of
`centerWID` at that point: `centerWID(7)` is its only call and
`focus.Register(8)` is never made, whereas without the error the run goes on
to register window 8 and ends with the closing of the channel. -/
theorem Created_with_failing_centerWID_stops :
    (WatchWindowEvents (stubOps (failing (.centerWID 7))) mainGrid ()
      [⟨.CreateNotifyEvent, 7⟩, ⟨.MapNotifyEvent, 8⟩]).2 = .returned (.external 1) ∧
    calls (WatchWindowEvents (stubOps (failing (.centerWID 7))) mainGrid ()
      [⟨.CreateNotifyEvent, 7⟩, ⟨.MapNotifyEvent, 8⟩]).1.log = [.centerWID 7] ∧
    Call.focusRegister 8 ∉ calls (WatchWindowEvents (stubOps (failing (.centerWID 7)))
      mainGrid () [⟨.CreateNotifyEvent, 7⟩, ⟨.MapNotifyEvent, 8⟩]).1.log ∧
    (WatchWindowEvents (stubOps noFailure) mainGrid ()
      [⟨.CreateNotifyEvent, 7⟩, ⟨.MapNotifyEvent, 8⟩]).2 = .returned .channelClosed ∧
    calls (WatchWindowEvents (stubOps noFailure) mainGrid ()
      [⟨.CreateNotifyEvent, 7⟩, ⟨.MapNotifyEvent, 8⟩]).1.log =
      [.centerWID 7, .SetBorderWidth 7 5, .focusRegister 8, .viewRegister 8] := by
  decide

/-- C7, amended. When the dispatcher, started with the mutex free, has gone
through the notifications `pre` and then receives the Created notification
for `w`, and `centerWID(w)` returns an error, `WatchWindowEvents` returns
that error at that point: the record of the run ends with the failed call,
whatever notifications follow, and the focus tracker and the view manager
are as they were before the notification. -/
theorem Created_error_is_returned {F V X : Type} (ops : Ops F V X) (g : Grid F V) (x : X)
    (pre rest : List Event) (w : WindowID) (s1 : St F V X) (e : Error) (x' : X)
    (hfree : g.mux = false)
    (hpre : loop ops pre ⟨g, x, []⟩ = (s1, none))
    (hfail : ops.centerWID { s1.g with mux := true } w s1.x = (some e, x')) :
    (WatchWindowEvents ops g x (pre ++ ⟨.CreateNotifyEvent, w⟩ :: rest)).2
      = .returned e ∧
    (WatchWindowEvents ops g x (pre ++ ⟨.CreateNotifyEvent, w⟩ :: rest)).1.log
      = s1.log ++ [.sleep 100, .lock, .call (.centerWID w) (some e)] ∧
    (WatchWindowEvents ops g x (pre ++ ⟨.CreateNotifyEvent, w⟩ :: rest)).1.x = x' ∧
    (WatchWindowEvents ops g x (pre ++ ⟨.CreateNotifyEvent, w⟩ :: rest)).1.g.focus
      = s1.g.focus ∧
    (WatchWindowEvents ops g x (pre ++ ⟨.CreateNotifyEvent, w⟩ :: rest)).1.g.view
      = s1.g.view := by
  have hf1 : s1.g.mux = false := loop_none_free ops pre _ s1 hfree hpre
  obtain ⟨h1, h2, h3, h4, h5⟩ := handle_create_error ops w s1 e x' hf1 hfail
  have hl : loop ops (pre ++ ⟨.CreateNotifyEvent, w⟩ :: rest) ⟨g, x, []⟩
      = ((handle ops ⟨.CreateNotifyEvent, w⟩ s1).1, some (.returned e)) := by
    rw [loop_append ops pre _ _ s1 hpre, loop_cons_some ops _ _ s1 _ h1]
  obtain ⟨k1, k2⟩ := WatchWindowEvents_of_loop ops g x
    (pre ++ ⟨.CreateNotifyEvent, w⟩ :: rest)
  rw [k1, k2, hl]
  exact ⟨rfl, h2, h3, h4, h5⟩

/-- Witness for the amended C7: window 3 is mapped, then window 7 is created
and `centerWID(7)` returns an error, and the notification for window 8 that
follows is not handled. -/
theorem Created_error_is_returned_witness :
    (WatchWindowEvents (stubOps (failing (.centerWID 7))) mainGrid ()
      ([⟨.MapNotifyEvent, 3⟩] ++ ⟨.CreateNotifyEvent, 7⟩ :: [⟨.MapNotifyEvent, 8⟩])).2
      = .returned (.external 1) ∧
    calls (WatchWindowEvents (stubOps (failing (.centerWID 7))) mainGrid ()
      ([⟨.MapNotifyEvent, 3⟩] ++ ⟨.CreateNotifyEvent, 7⟩ :: [⟨.MapNotifyEvent, 8⟩])).1.log
      = [.focusRegister 3, .viewRegister 3, .centerWID 7] := by
  obtain ⟨h1, h2, _⟩ :=
    Created_error_is_returned (stubOps (failing (.centerWID 7))) mainGrid ()
      [⟨.MapNotifyEvent, 3⟩] [⟨.MapNotifyEvent, 8⟩] 7
      (loop (stubOps (failing (.centerWID 7))) [⟨.MapNotifyEvent, 3⟩] ⟨mainGrid, (), []⟩).1
      (.external 1) () rfl rfl rfl
  refine ⟨h1, ?_⟩
  rw [h2]
  decide

/-- How the loop leaves the mutex when it starts with the mutex free: free
when the loop runs to the end of the sequence, held when an iteration returns
an error, which happens only after a call has failed. -/
theorem loop_exit_mutex {F V X : Type} (ops : Ops F V X) (evs : List Event)
    (s : St F V X) (hfree : s.g.mux = false) :
    ((loop ops evs s).2 = none ∧ (loop ops evs s).1.g.mux = false) ∨
    (∃ e, (loop ops evs s).2 = some (.returned e) ∧ (loop ops evs s).1.g.mux = true) := by
  induction evs generalizing s with
  | nil => exact Or.inl ⟨rfl, hfree⟩
  | cons ev rest ih =>
    rcases handle_cases ops ev s hfree with ⟨ho, hm, _, _⟩ | ⟨e, l, ho, hm, _, _⟩
    · rw [loop_cons_none ops ev _ s ho]
      exact ih _ hm
    · rw [loop_cons_some ops ev _ s _ ho]
      exact Or.inr ⟨e, rfl, hm⟩

/-- C9 (the code falls short of it). The mutex is free, window 7 is created
and `centerWID(7)` returns an error: `WatchWindowEvents` returns that error
having locked the mutex and not unlocked it, so the mutex is held when the
function returns. With no failing call the same run ends with the mutex
free. -/
theorem WatchWindowEvents_returns_with_mutex_held :
    mainGrid.mux = false ∧
    (WatchWindowEvents (stubOps (failing (.centerWID 7))) mainGrid ()
      [⟨.CreateNotifyEvent, 7⟩]).2 = .returned (.external 1) ∧
    (WatchWindowEvents (stubOps (failing (.centerWID 7))) mainGrid ()
      [⟨.CreateNotifyEvent, 7⟩]).1.g.mux = true ∧
    (WatchWindowEvents (stubOps (failing (.centerWID 7))) mainGrid ()
      [⟨.CreateNotifyEvent, 7⟩]).1.log
      = [.sleep 100, .lock, .call (.centerWID 7) (some (.external 1))] ∧
    (WatchWindowEvents (stubOps noFailure) mainGrid ()
      [⟨.CreateNotifyEvent, 7⟩]).2 = .returned .channelClosed ∧
    (WatchWindowEvents (stubOps noFailure) mainGrid ()
      [⟨.CreateNotifyEvent, 7⟩]).1.g.mux = false := by
  decide

end Fgwm
